import Mathlib

/-!
Verification of the account/transfer core of `desafio-go-stone`, a small
banking REST API written in Go. The development shallowly embeds:

* `database/inmem.go` — the in-memory `DB` implementation (`CreateAccount`,
  `FindAccountByID`, `FindAccountByCPF`, `FindAllAccounts`, `CreateTransfer`);
* `auth/auth.go` — JWT issuance and verification (`EncodeToken`,
  `DecodeToken`), with the HMAC-SHA256 signature modelled as an ideal
  symbolic MAC;
* the router package — request validation and the handlers
  `createAccount`, `createTransfer`, and the `requireLogin` middleware.

Go's `map[int64]*Account` is modelled as a list of accounts in insertion
order; keys of the Go map are the `ID` fields, so distinct entries of the
map always carry distinct ids (stated as a hypothesis / invariant where it
matters). Monetary values (`shopspring/decimal`, arbitrary-precision
decimals with exact `Add`/`Sub`/`LessThan`) are modelled as rationals.
Timestamps (`time.Time`, Unix seconds) are modelled as integers.
-/

namespace DesafioGoStone

/-! ## Data model (`database/database.go`) -/

/-- Mirrors `database.Account`: id, name, cpf, hashed secret, balance,
creation timestamp. -/
structure Account where
  id : Int
  name : String
  cpf : String
  secret : String
  balance : ℚ
  createdAt : Int
deriving Repr, DecidableEq

/-- Mirrors `database.Transfer`: id, origin account id, destination account
id, amount, creation timestamp. -/
structure Transfer where
  id : Int
  accountOriginID : Int
  accountDestinationID : Int
  amount : ℚ
  createdAt : Int
deriving Repr, DecidableEq

/-- Mirrors the three error sentinels of the `database` package. -/
inductive DBError where
  | accountNotFound
  | accountAlreadyExists
  | notEnoughFunds
deriving Repr, DecidableEq

/-- State of the in-memory database `inmemDB`: the `accounts` and
`transfers` maps, as lists in insertion order. -/
structure DBState where
  accounts : List Account
  transfers : List Transfer
deriving Repr, DecidableEq

/-- The state `NewInMemDB` starts from: both maps empty. -/
def emptyDB : DBState := { accounts := [], transfers := [] }

deriving instance DecidableEq for Except

/-! ## In-memory database operations (`database/inmem.go`) -/

/-- Mirrors `inmemDB.CreateAccount`: scan the accounts map for an entry with
the same CPF (the scan's outcome does not depend on the unspecified map
iteration order); on a duplicate return `ErrAccountAlreadyExists` leaving the
state untouched, otherwise assign `ID = len(accounts)+1` and the current
timestamp, and insert. The post-state is returned alongside the result. -/
def CreateAccount (s : DBState) (name cpf secret : String) (balance : ℚ)
    (now : Int) : DBState × Except DBError Account :=
  if s.accounts.any (fun acc => acc.cpf == cpf) then
    (s, .error .accountAlreadyExists)
  else
    let account : Account :=
      { id := (s.accounts.length : Int) + 1, name := name, cpf := cpf,
        secret := secret, balance := balance, createdAt := now }
    ({ s with accounts := s.accounts ++ [account] }, .ok account)

/-- Mirrors `inmemDB.FindAccountByID`: return the entry whose `ID` matches,
or `ErrAccountNotFound`. The Go loop returns the first match in map
iteration order; map keys (the ids) are distinct, so at most one entry
matches and `find?` on the insertion-order list is equivalent. -/
def FindAccountByID (s : DBState) (id : Int) : Except DBError Account :=
  match s.accounts.find? (fun acc => acc.id == id) with
  | some acc => .ok acc
  | none => .error .accountNotFound

/-- Mirrors `inmemDB.FindAccountByCPF`. -/
def FindAccountByCPF (s : DBState) (cpf : String) : Except DBError Account :=
  match s.accounts.find? (fun acc => acc.cpf == cpf) with
  | some acc => .ok acc
  | none => .error .accountNotFound

/-- Mirrors the account-resolution loop of `inmemDB.CreateTransfer`, which
keeps overwriting `srcAccount`/`dstAccount` on every key match, so the last
match in iteration order wins (with distinct ids, the unique match). -/
def scanForID (accs : List Account) (id : Int) : Option Account :=
  accs.foldl (fun r acc => if acc.id == id then some acc else r) none

/-- Mirrors the in-place balance mutation `acc.Balance = f(acc.Balance)`
through the map: every entry under the given key (the unique one, as map
keys are distinct) has its balance updated. -/
def updBalance (accs : List Account) (id : Int) (f : ℚ → ℚ) : List Account :=
  accs.map (fun acc =>
    if acc.id == id then { acc with balance := f acc.balance } else acc)

/-- Mirrors `inmemDB.CreateTransfer`: resolve both accounts (error
`ErrAccountNotFound` if either is absent, before any mutation), reject with
`ErrNotEnoughFunds` when `src.Balance < amount` (again before any mutation),
otherwise assign the transfer `ID = len(transfers)+1` and timestamp,
subtract the amount from the origin balance, then add it to the destination
balance, and append the transfer. The two balance writes go through the
map sequentially, exactly as the Go pointer writes do; when origin equals
destination both writes hit the same record. -/
def CreateTransfer (s : DBState) (originID destID : Int) (amount : ℚ)
    (now : Int) : DBState × Except DBError Transfer :=
  match scanForID s.accounts originID, scanForID s.accounts destID with
  | some src, some dst =>
    if src.balance < amount then
      (s, .error .notEnoughFunds)
    else
      let tr : Transfer :=
        { id := (s.transfers.length : Int) + 1, accountOriginID := originID,
          accountDestinationID := destID, amount := amount, createdAt := now }
      ({ accounts :=
           updBalance (updBalance s.accounts src.id (fun b => b - amount))
             dst.id (fun b => b + amount),
         transfers := s.transfers ++ [tr] }, .ok tr)
  | _, _ => (s, .error .accountNotFound)

/-- Mirrors `inmemDB.FindAllAccounts`, which copies the accounts map into a
slice by ranging over it. Go leaves map iteration order unspecified, so the
observable results are exactly the permutations of the stored accounts;
this predicate holds of every list the Go function may return. -/
def FindAllAccountsCanReturn (s : DBState) (out : List Account) : Prop :=
  s.accounts.Perm out

/-- Ordering used by `postgresDB.FindAllAccounts` (`ORDER BY created_at
ASC`). -/
def createdAtLE (a b : Account) : Bool := a.createdAt ≤ b.createdAt

/-- Mirrors `postgresDB.FindAllAccounts`: all stored accounts, sorted by
creation timestamp ascending (the `ORDER BY account.created_at ASC`
clause), realised here by a stable merge sort. -/
def postgresFindAllAccounts (s : DBState) : List Account :=
  s.accounts.mergeSort createdAtLE

/-- Ordering requirement stated by the listing contract ("ordered by
creation time ascending"), written from the contract's words to compare
the implementations against. -/
def sortedByCreation : List Account → Prop :=
  List.Sorted (fun a b : Account => a.createdAt ≤ b.createdAt)

/-! ## Authentication (`auth/auth.go`) -/

namespace Auth

/-- Mirrors `jwtClaims`: the standard claims set by `EncodeToken`
(`IssuedAt`, `ExpiresAt`, as Unix seconds) together with the custom
account-id claim. Standard claims the code never sets (`nbf`, `aud`, ...)
stay at their zero values and are omitted. -/
structure TokenClaims where
  accountID : Int
  issuedAt : Int
  expiresAt : Int
deriving Repr, DecidableEq

/-- Name of the signing method `jwtMethod = jwt.SigningMethodHS256`. -/
def hs256 : String := "HS256"

/-- Symbolic model of the HMAC-SHA256 signature over the encoded claims: an
ideal MAC, represented as the pair of the signing secret and the signed
claims, so two signatures agree exactly when both the secret and the
claims agree. -/
def mac (secret : String) (claims : TokenClaims) : String × TokenClaims :=
  (secret, claims)

/-- A serialized JWT as produced or parsed by `jwt-go`: the algorithm
header, the claims, and the signature. -/
structure SignedToken where
  alg : String
  claims : TokenClaims
  sig : String × TokenClaims
deriving Repr, DecidableEq

/-- Mirrors `auth.EncodeToken`: claims carry the account id, `IssuedAt =
time.Now().Unix()` and `ExpiresAt = time.Now().Add(time.Hour).Unix()`, the
whole signed with HS256 under `secret`. Both clock reads are modelled as
the single instant `now`, so the expiry is exactly one hour after
issuance. -/
def EncodeToken (secret : String) (accountID : Int) (now : Int) : SignedToken :=
  { alg := hs256,
    claims := { accountID := accountID, issuedAt := now, expiresAt := now + 3600 },
    sig := mac secret { accountID := accountID, issuedAt := now, expiresAt := now + 3600 } }

/-- Failure modes of `auth.DecodeToken` / `jwt.ParseWithClaims`. -/
inductive AuthError where
  | unexpectedSigningMethod
  | tokenExpired
  | tokenUsedBeforeIssued
  | signatureInvalid
deriving Repr, DecidableEq

/-- Mirrors `auth.DecodeToken` at clock time `now`: the key function rejects
any algorithm other than HS256; `StandardClaims.Valid` rejects an elapsed
expiry (`now > exp`, with `exp = 0` meaning no expiry, as in
`jwt.verifyExp`) and a future issued-at (`now < iat`, `iat = 0` skipped);
the signature must verify under `secret`. On success the embedded account
id is returned. `jwt-go` runs all checks and combines the failures; the
check order here only picks which failure is reported. -/
def DecodeToken (secret : String) (token : SignedToken) (now : Int) :
    Except AuthError Int :=
  if token.alg ≠ hs256 then .error .unexpectedSigningMethod
  else if token.claims.expiresAt ≠ 0 ∧ token.claims.expiresAt < now then
    .error .tokenExpired
  else if token.claims.issuedAt ≠ 0 ∧ now < token.claims.issuedAt then
    .error .tokenUsedBeforeIssued
  else if token.sig ≠ mac secret token.claims then .error .signatureInvalid
  else .ok token.claims.accountID

/-- Abstract stand-in for `auth.HashPassword` (bcrypt). The hash value is
opaque to every property proved here; only the fact that the stored secret
is some function of the password matters. -/
def hashPassword (password : String) : String :=
  String.append "bcrypt2a" password

end Auth

/-! ## Router: validation and handlers (router package) -/

namespace Router

/-- Mirrors the `errorCode` constants of the router package, plus a marker
for `renderServerError` (HTTP 500 without a code). -/
inductive ErrorCode where
  | missingBearerToken
  | invalidBearerToken
  | validationError
  | accountAlreadyExists
  | accountNotFound
  | accountSecretInvalid
  | accountFundsInsuficient
  | internalServerError
deriving Repr, DecidableEq

/-- Matcher for the custom `cpf` validator's regular expression
`\d{3}\.\d{3}\.\d{3}\-\d{2}` at the head of a character list (`\d` in Go
regexp is ASCII `[0-9]`). -/
def cpfPatternAt : List Char → Bool
  | c1 :: c2 :: c3 :: '.' :: c4 :: c5 :: c6 :: '.' :: c7 :: c8 :: c9 :: '-' :: c10 :: c11 :: _ =>
    c1.isDigit && c2.isDigit && c3.isDigit && c4.isDigit && c5.isDigit &&
    c6.isDigit && c7.isDigit && c8.isDigit && c9.isDigit && c10.isDigit &&
    c11.isDigit
  | _ => false

/-- Mirrors the registered `cpf` validation: `MatchString` is unanchored,
so the pattern may match at any position. -/
def cpfValid (s : String) : Bool :=
  s.data.tails.any cpfPatternAt

/-- Mirrors validation of the `createAccount` request body: `name` is
`required`, `cpf` is `required,cpf`, `secret` is `required,min=6`. The
`balance` field carries no validation tag: any decimal, including a
negative one, passes. -/
def validCreateAccountBody (name cpf secret : String) : Bool :=
  !name.isEmpty && !cpf.isEmpty && cpfValid cpf && !secret.isEmpty &&
    decide (6 ≤ secret.length)

/-- Mirrors validation of the `createTransfer` request body. Both fields
are tagged `required`, which for `validator/v10` means "not the zero
value": `AccountDestinationID` must be a non-zero integer, and the decimal
`Amount` must not be the zero *struct* — which only the absent field
decodes to; an explicitly supplied amount, zero or negative included,
passes (`decimal.UnmarshalJSON` allocates an inner big.Int pointer, so the
decoded struct never equals the reflect zero value). The amount is
therefore modelled as `Option ℚ` with `required` checking presence. -/
def validCreateTransferBody (destID : Int) (amountField : Option ℚ) : Bool :=
  destID != 0 && amountField.isSome

/-- Mirrors `handler.createAccount` past JSON decoding: validate the body,
hash the secret, call `DB.CreateAccount`, and map `ErrAccountAlreadyExists`
to the `ACCOUNT_ALREADY_EXISTS` response code (anything else would be a 500;
the in-memory DB returns no other error). -/
def createAccountHandler (s : DesafioGoStone.DBState) (name cpf secret : String)
    (balance : ℚ) (now : Int) :
    DesafioGoStone.DBState × Except ErrorCode DesafioGoStone.Account :=
  if validCreateAccountBody name cpf secret then
    let r := DesafioGoStone.CreateAccount s name cpf (Auth.hashPassword secret)
      balance now
    match r.2 with
    | .ok account => (r.1, .ok account)
    | .error .accountAlreadyExists => (r.1, .error .accountAlreadyExists)
    | .error _ => (r.1, .error .internalServerError)
  else
    (s, .error .validationError)

/-- Mirrors `handler.createTransfer` past authentication and JSON decoding:
the origin is always the authenticated account's id; validate the body,
call `DB.CreateTransfer`, and map `ErrAccountNotFound` /
`ErrNotEnoughFunds` to their response codes. -/
def createTransferHandler (s : DesafioGoStone.DBState) (originID destID : Int)
    (amountField : Option ℚ) (now : Int) :
    DesafioGoStone.DBState × Except ErrorCode DesafioGoStone.Transfer :=
  if validCreateTransferBody destID amountField then
    match amountField with
    | some amount =>
      let r := DesafioGoStone.CreateTransfer s originID destID amount now
      match r.2 with
      | .ok tr => (r.1, .ok tr)
      | .error .accountNotFound => (r.1, .error .accountNotFound)
      | .error .notEnoughFunds => (r.1, .error .accountFundsInsuficient)
      | .error _ => (r.1, .error .internalServerError)
    | none => (s, .error .validationError)
  else
    (s, .error .validationError)

/-- Mirrors `handler.requireLogin` past bearer-prefix stripping: `none`
models an empty credential after trimming (`MISSING_BEARER_TOKEN`); a
token that fails `DecodeToken` yields `INVALID_BEARER_TOKEN`; a token that
decodes to an account id absent from the store (`ErrAccountNotFound`) yields
the same `INVALID_BEARER_TOKEN`; otherwise the resolved account is attached
to the request context. -/
def requireLogin (s : DesafioGoStone.DBState) (jwtSecret : String)
    (credential : Option Auth.SignedToken) (now : Int) :
    Except ErrorCode DesafioGoStone.Account :=
  match credential with
  | none => .error .missingBearerToken
  | some token =>
    match Auth.DecodeToken jwtSecret token now with
    | .error _ => .error .invalidBearerToken
    | .ok accountID =>
      match DesafioGoStone.FindAccountByID s accountID with
      | .ok account => .ok account
      | .error .accountNotFound => .error .invalidBearerToken
      | .error _ => .error .internalServerError

end Router

/-! ## Reachable database states -/

/-- States of the in-memory store reachable from empty through the two
mutating endpoints, with arbitrary request bodies (the read-only endpoints
do not change the state). The origin id of a transfer is the authenticated
account's id; it is left arbitrary here, which only enlarges the state
space, and `CreateTransfer` re-checks existence anyway. -/
inductive Reachable : DBState → Prop where
  | empty : Reachable emptyDB
  | createAccount {s : DBState} (name cpf secret : String) (balance : ℚ)
      (now : Int) : Reachable s →
      Reachable (Router.createAccountHandler s name cpf secret balance now).1
  | createTransfer {s : DBState} (originID destID : Int)
      (amountField : Option ℚ) (now : Int) : Reachable s →
      Reachable (Router.createTransferHandler s originID destID amountField now).1

/-- Reachable states when every account is created with a non-negative
initial balance and every transfer carries a non-negative amount. -/
inductive ReachableNN : DBState → Prop where
  | empty : ReachableNN emptyDB
  | createAccount {s : DBState} (name cpf secret : String) (balance : ℚ)
      (now : Int) : ReachableNN s → 0 ≤ balance →
      ReachableNN (Router.createAccountHandler s name cpf secret balance now).1
  | createTransfer {s : DBState} (originID destID : Int)
      (amountField : Option ℚ) (now : Int) : ReachableNN s →
      (∀ q : ℚ, amountField = some q → 0 ≤ q) →
      ReachableNN (Router.createTransferHandler s originID destID amountField now).1

/-! ## Helper lemmas -/

/-- Updating a single entry's balance leaves its id unchanged. -/
theorem updEntry_id (acc : Account) (id : Int) (f : ℚ → ℚ) :
    (if acc.id == id then { acc with balance := f acc.balance } else acc).id
      = acc.id := by
  by_cases h : acc.id == id <;> simp [h]

/-- Balance of a single entry after a keyed update. -/
theorem updEntry_balance (acc : Account) (id : Int) (f : ℚ → ℚ) :
    (if acc.id == id then { acc with balance := f acc.balance } else acc).balance
      = if acc.id = id then f acc.balance else acc.balance := by
  by_cases h : acc.id = id <;> simp [h]

/-- The overwrite-fold of `inmemDB.CreateTransfer` returns the last match,
i.e. the first match of the reversed list. -/
theorem scanForID_eq (l : List Account) (id : Int) :
    scanForID l id = l.reverse.find? (fun acc => acc.id == id) := by
  suffices h : ∀ (init : Option Account),
      l.foldl (fun r acc => if acc.id == id then some acc else r) init
        = (l.reverse.find? (fun acc => acc.id == id)).or init by
    show l.foldl (fun r acc => if acc.id == id then some acc else r) none = _
    rw [h none, Option.or_none]
  induction l with
  | nil => intro init; simp [List.find?]
  | cons a t ih =>
    intro init
    simp only [List.foldl_cons, ih, List.reverse_cons, List.find?_append,
      Option.or_assoc]
    congr 1
    by_cases h : a.id == id <;> simp [List.find?, h]

/-- A `find?` by id is exhaustive: `none` exactly when no entry matches. -/
theorem scanForID_eq_none (l : List Account) (id : Int) :
    scanForID l id = none ↔ ∀ a ∈ l, a.id ≠ id := by
  simp [scanForID_eq, List.find?_eq_none]

/-- A successful scan returns a stored entry with the requested id. -/
theorem scanForID_mem {l : List Account} {id : Int} {a : Account}
    (h : scanForID l id = some a) : a ∈ l ∧ a.id = id := by
  rw [scanForID_eq] at h
  refine ⟨List.mem_reverse.mp (List.mem_of_find?_eq_some h), ?_⟩
  simpa using List.find?_some h

/-- With pairwise-distinct ids (map keys), `find?` by the id of a stored
entry returns exactly that entry. -/
theorem find?_id_eq_some {l : List Account} {a : Account}
    (hnd : (l.map Account.id).Nodup) (ha : a ∈ l) :
    l.find? (fun acc => acc.id == a.id) = some a := by
  cases h : l.find? (fun acc => acc.id == a.id) with
  | none =>
    rw [List.find?_eq_none] at h
    exact absurd (by simp) (h a ha)
  | some b =>
    have hb : b ∈ l := List.mem_of_find?_eq_some h
    have hid : b.id = a.id := by simpa using List.find?_some h
    rw [List.inj_on_of_nodup_map hnd hb ha hid]

/-- With pairwise-distinct ids, the overwrite-scan also returns exactly the
stored entry with the requested id. -/
theorem scanForID_eq_some_of {l : List Account} {a : Account}
    (hnd : (l.map Account.id).Nodup) (ha : a ∈ l) :
    scanForID l a.id = some a := by
  rw [scanForID_eq]
  have hnd' : (l.reverse.map Account.id).Nodup := by
    rw [List.map_reverse]
    exact List.nodup_reverse.mpr hnd
  exact find?_id_eq_some hnd' (List.mem_reverse.mpr ha)

/-- Balance updates preserve the list of ids. -/
theorem updBalance_map_id (l : List Account) (id : Int) (f : ℚ → ℚ) :
    (updBalance l id f).map Account.id = l.map Account.id := by
  simp only [updBalance, List.map_map]
  exact List.map_congr_left fun a _ => updEntry_id a id f

/-- Balance updates preserve the list of CPFs. -/
theorem updBalance_map_cpf (l : List Account) (id : Int) (f : ℚ → ℚ) :
    (updBalance l id f).map Account.cpf = l.map Account.cpf := by
  simp only [updBalance, List.map_map]
  refine List.map_congr_left fun a _ => ?_
  by_cases h : a.id = id <;> simp [h]

/-- Balance updates preserve the number of accounts. -/
theorem updBalance_length (l : List Account) (id : Int) (f : ℚ → ℚ) :
    (updBalance l id f).length = l.length := by
  simp [updBalance]

/-- Finding by id commutes with a balance update. -/
theorem find?_updBalance (l : List Account) (id j : Int) (f : ℚ → ℚ) :
    (updBalance l id f).find? (fun acc => acc.id == j)
      = (l.find? (fun acc => acc.id == j)).map
          (fun acc => if acc.id == id then { acc with balance := f acc.balance }
            else acc) := by
  rw [updBalance, List.find?_map]
  have hcomp : ((fun acc : Account => acc.id == j) ∘ fun acc : Account =>
      if acc.id == id then { acc with balance := f acc.balance } else acc)
      = fun acc : Account => acc.id == j := by
    funext acc
    simp only [Function.comp_apply, updEntry_id]
  rw [hcomp]

/-- Key discipline of the two in-memory maps: ids are pairwise distinct
(they are the map keys), and since records are only ever added with
`ID = len+1` and never removed, every stored id lies in `[1, len]`. -/
def GoodIDs (s : DBState) : Prop :=
  (s.accounts.map Account.id).Nodup ∧
  (∀ a ∈ s.accounts, 1 ≤ a.id ∧ a.id ≤ (s.accounts.length : Int)) ∧
  (∀ tr ∈ s.transfers, 1 ≤ tr.id ∧ tr.id ≤ (s.transfers.length : Int))

/-- Shape of `CreateTransfer` on the success path. -/
theorem createTransfer_ok {s : DBState} {originID destID : Int}
    {src dst : Account} {amount : ℚ} {now : Int}
    (hsrc : scanForID s.accounts originID = some src)
    (hdst : scanForID s.accounts destID = some dst)
    (hbal : ¬ src.balance < amount) :
    CreateTransfer s originID destID amount now =
      ({ accounts :=
           updBalance (updBalance s.accounts src.id (fun b => b - amount))
             dst.id (fun b => b + amount),
         transfers := s.transfers ++
           [{ id := (s.transfers.length : Int) + 1, accountOriginID := originID,
              accountDestinationID := destID, amount := amount,
              createdAt := now }] },
       .ok { id := (s.transfers.length : Int) + 1, accountOriginID := originID,
             accountDestinationID := destID, amount := amount,
             createdAt := now }) := by
  simp [CreateTransfer, hsrc, hdst, hbal]

/-- The post-state of `createAccountHandler` is the pre-state (rejection)
or the post-state of the database call. -/
theorem createAccountHandler_fst (s : DBState) (name cpf secret : String)
    (balance : ℚ) (now : Int) :
    (Router.createAccountHandler s name cpf secret balance now).1 = s ∨
    (Router.createAccountHandler s name cpf secret balance now).1
      = (CreateAccount s name cpf (Auth.hashPassword secret) balance now).1 := by
  unfold Router.createAccountHandler
  by_cases hv : Router.validCreateAccountBody name cpf secret
  · cases h : (CreateAccount s name cpf (Auth.hashPassword secret) balance now).2 with
    | ok account => right; simp [hv, h]
    | error e => cases e <;> (right; simp [hv, h])
  · left; simp [hv]

/-- The post-state of `createTransferHandler` is the pre-state (rejection)
or the post-state of the database call on the decoded amount. -/
theorem createTransferHandler_fst (s : DBState) (originID destID : Int)
    (amountField : Option ℚ) (now : Int) :
    (Router.createTransferHandler s originID destID amountField now).1 = s ∨
    ∃ amount, amountField = some amount ∧
      (Router.createTransferHandler s originID destID amountField now).1
        = (CreateTransfer s originID destID amount now).1 := by
  unfold Router.createTransferHandler
  by_cases hv : Router.validCreateTransferBody destID amountField
  · cases ha : amountField with
    | none =>
      subst ha
      left; simp [hv]
    | some amount =>
      subst ha
      right
      refine ⟨amount, rfl, ?_⟩
      cases h : (CreateTransfer s originID destID amount now).2 with
      | ok tr => simp [hv, h]
      | error e => cases e <;> simp [hv, h]
  · left; simp [hv]

/-- `CreateAccount` preserves the map-key discipline. -/
theorem goodIDs_createAccount {s : DBState} (h : GoodIDs s)
    (name cpf secret : String) (balance : ℚ) (now : Int) :
    GoodIDs (CreateAccount s name cpf secret balance now).1 := by
  obtain ⟨hnd, hacc, htr⟩ := h
  unfold CreateAccount
  by_cases hdup : s.accounts.any (fun acc => acc.cpf == cpf)
  · simpa [hdup] using ⟨hnd, hacc, htr⟩
  · rw [if_neg hdup]
    refine ⟨?_, ?_, ?_⟩
    · rw [List.map_append, List.nodup_append]
      refine ⟨hnd, by simp, ?_⟩
      intro x hx hmem
      simp only [List.map_cons, List.map_nil, List.mem_singleton] at hmem
      obtain ⟨a, ha, rfl⟩ := List.mem_map.mp hx
      have := (hacc a ha).2
      omega
    · intro a ha
      simp only [List.length_append, List.length_singleton]
      rcases List.mem_append.mp ha with hmem | hmem
      · have := hacc a hmem
        push_cast
        omega
      · simp only [List.mem_singleton] at hmem
        subst hmem
        push_cast
        simp
    · simpa using htr

/-- `CreateTransfer` preserves the map-key discipline. -/
theorem goodIDs_createTransfer {s : DBState} (h : GoodIDs s)
    (originID destID : Int) (amount : ℚ) (now : Int) :
    GoodIDs (CreateTransfer s originID destID amount now).1 := by
  obtain ⟨hnd, hacc, htr⟩ := h
  cases hsrc : scanForID s.accounts originID with
  | none => simpa [CreateTransfer, hsrc] using ⟨hnd, hacc, htr⟩
  | some src =>
    cases hdst : scanForID s.accounts destID with
    | none => simpa [CreateTransfer, hsrc, hdst] using ⟨hnd, hacc, htr⟩
    | some dst =>
      by_cases hbal : src.balance < amount
      · simpa [CreateTransfer, hsrc, hdst, hbal] using ⟨hnd, hacc, htr⟩
      · rw [createTransfer_ok hsrc hdst hbal]
        refine ⟨?_, ?_, ?_⟩
        · simpa [updBalance_map_id] using hnd
        · intro a ha
          have hid := List.mem_map_of_mem Account.id ha
          rw [updBalance_map_id, updBalance_map_id] at hid
          obtain ⟨c, hc, hce⟩ := List.mem_map.mp hid
          rw [updBalance_length, updBalance_length]
          have := hacc c hc
          omega
        · intro tr hmem
          simp only [List.length_append, List.length_singleton]
          rcases List.mem_append.mp hmem with h0 | h1
          · have := htr tr h0
            push_cast
            omega
          · simp only [List.mem_singleton] at h1
            subst h1
            push_cast
            simp

/-- Every reachable state of the in-memory store obeys the map-key
discipline. -/
theorem reachable_goodIDs {s : DBState} (h : Reachable s) : GoodIDs s := by
  induction h with
  | empty => exact ⟨by simp [emptyDB], by simp [emptyDB], by simp [emptyDB]⟩
  | @createAccount s name cpf secret balance now hr ih =>
    rcases createAccountHandler_fst s name cpf secret balance now with he | he
    · rw [he]; exact ih
    · rw [he]; exact goodIDs_createAccount ih name cpf (Auth.hashPassword secret) balance now
  | @createTransfer s originID destID amountField now hr ih =>
    rcases createTransferHandler_fst s originID destID amountField now with
      he | ⟨amount, _, he⟩
    · rw [he]; exact ih
    · rw [he]; exact goodIDs_createTransfer ih originID destID amount now

/-- `CreateAccount` preserves CPF uniqueness: it only inserts after the
duplicate scan comes back empty. -/
theorem createAccount_cpf_nodup {s : DBState}
    (h : (s.accounts.map Account.cpf).Nodup) (name cpf secret : String)
    (balance : ℚ) (now : Int) :
    (((CreateAccount s name cpf secret balance now).1).accounts.map
      Account.cpf).Nodup := by
  unfold CreateAccount
  by_cases hdup : s.accounts.any (fun acc => acc.cpf == cpf)
  · simpa [hdup] using h
  · rw [if_neg hdup]
    simp only [List.any_eq_true, beq_iff_eq, not_exists, not_and] at hdup
    rw [List.map_append, List.nodup_append]
    refine ⟨h, by simp, ?_⟩
    intro x hx hmem
    simp only [List.map_cons, List.map_nil, List.mem_singleton] at hmem
    obtain ⟨a, ha, rfl⟩ := List.mem_map.mp hx
    exact hdup a ha hmem

/-- Every reachable state has pairwise-distinct CPFs. -/
theorem reachable_cpf_nodup {s : DBState} (h : Reachable s) :
    (s.accounts.map Account.cpf).Nodup := by
  induction h with
  | empty => simp [emptyDB]
  | @createAccount s name cpf secret balance now hr ih =>
    rcases createAccountHandler_fst s name cpf secret balance now with he | he
    · rw [he]; exact ih
    · rw [he]; exact createAccount_cpf_nodup ih name cpf (Auth.hashPassword secret) balance now
  | @createTransfer s originID destID amountField now hr ih =>
    rcases createTransferHandler_fst s originID destID amountField now with
      he | ⟨amount, _, he⟩
    · rw [he]; exact ih
    · rw [he]
      cases hsrc : scanForID s.accounts originID with
      | none => simpa [CreateTransfer, hsrc] using ih
      | some src =>
        cases hdst : scanForID s.accounts destID with
        | none => simpa [CreateTransfer, hsrc, hdst] using ih
        | some dst =>
          by_cases hbal : src.balance < amount
          · simpa [CreateTransfer, hsrc, hdst, hbal] using ih
          · rw [createTransfer_ok hsrc hdst hbal]
            simpa [updBalance_map_cpf] using ih

/-- Restricting the inputs only removes transitions. -/
theorem reachableNN_to_reachable {s : DBState} (h : ReachableNN s) :
    Reachable s := by
  induction h with
  | empty => exact .empty
  | @createAccount s name cpf secret balance now _ _ ih =>
    exact .createAccount name cpf secret balance now ih
  | @createTransfer s originID destID amountField now _ _ ih =>
    exact .createTransfer originID destID amountField now ih

/-- Balances stay non-negative along any run whose account creations carry
non-negative initial balances and whose transfers carry non-negative
amounts. -/
theorem reachableNN_nonneg {s : DBState} (h : ReachableNN s) :
    ∀ a ∈ s.accounts, 0 ≤ a.balance := by
  induction h with
  | empty => simp [emptyDB]
  | @createAccount s name cpf secret balance now hr hb ih =>
    rcases createAccountHandler_fst s name cpf secret balance now with he | he
    · rw [he]; exact ih
    · rw [he]
      unfold CreateAccount
      by_cases hdup : s.accounts.any (fun acc => acc.cpf == cpf)
      · simpa [hdup] using ih
      · rw [if_neg hdup]
        intro a ha
        rcases List.mem_append.mp ha with h0 | h1
        · exact ih a h0
        · simp only [List.mem_singleton] at h1
          subst h1
          simpa using hb
  | @createTransfer s originID destID amountField now hr hq ih =>
    rcases createTransferHandler_fst s originID destID amountField now with
      he | ⟨amount, ha, he⟩
    · rw [he]; exact ih
    · rw [he]
      have hq0 : 0 ≤ amount := hq amount ha
      obtain ⟨hnd, _, _⟩ := reachable_goodIDs (reachableNN_to_reachable hr)
      cases hsrc : scanForID s.accounts originID with
      | none => simpa [CreateTransfer, hsrc] using ih
      | some src =>
        cases hdst : scanForID s.accounts destID with
        | none => simpa [CreateTransfer, hsrc, hdst] using ih
        | some dst =>
          by_cases hbal : src.balance < amount
          · simpa [CreateTransfer, hsrc, hdst, hbal] using ih
          · rw [createTransfer_ok hsrc hdst hbal]
            obtain ⟨hsrcmem, _⟩ := scanForID_mem hsrc
            intro a ha
            simp only [updBalance, List.map_map, List.mem_map] at ha
            obtain ⟨c, hc, rfl⟩ := ha
            simp only [Function.comp_apply]
            have hihc := ih c hc
            have hle := not_lt.mp hbal
            split_ifs with h1 h2 h3
            · show 0 ≤ c.balance - amount + amount
              linarith
            · have h1e : c.id = src.id := by simpa using h1
              have hceq : c = src := List.inj_on_of_nodup_map hnd hc hsrcmem h1e
              have hlec : amount ≤ c.balance := by rw [hceq]; exact hle
              show 0 ≤ c.balance - amount
              linarith
            · show 0 ≤ c.balance + amount
              linarith
            · exact hihc

/-! ## Claim theorems -/

/-- C1: for every two distinct existing accounts A and B and every amount
with `A.balance >= amount`, `CreateTransfer` with origin A, destination B
and that amount succeeds; afterwards A's balance has decreased by exactly
`amount`, B's balance has increased by exactly `amount`, and exactly one
new `Transfer` record with a fresh id, origin A, destination B and that
amount has been appended; in particular when `A.balance = amount` the
origin balance becomes 0. The id-discipline hypotheses hold of every
reachable store (`reachable_goodIDs`). -/
theorem C1_transfer_success (s : DBState) (A B : Account) (amount : ℚ)
    (now : Int)
    (hnd : (s.accounts.map Account.id).Nodup)
    (htr : ∀ tr ∈ s.transfers, tr.id ≤ (s.transfers.length : Int))
    (hA : A ∈ s.accounts) (hB : B ∈ s.accounts) (hAB : A.id ≠ B.id)
    (hbal : amount ≤ A.balance) :
    (CreateTransfer s A.id B.id amount now).2
        = .ok { id := (s.transfers.length : Int) + 1, accountOriginID := A.id,
                accountDestinationID := B.id, amount := amount,
                createdAt := now } ∧
    FindAccountByID (CreateTransfer s A.id B.id amount now).1 A.id
        = .ok { A with balance := A.balance - amount } ∧
    FindAccountByID (CreateTransfer s A.id B.id amount now).1 B.id
        = .ok { B with balance := B.balance + amount } ∧
    (CreateTransfer s A.id B.id amount now).1.transfers
        = s.transfers ++
          [{ id := (s.transfers.length : Int) + 1, accountOriginID := A.id,
             accountDestinationID := B.id, amount := amount,
             createdAt := now }] ∧
    ((s.transfers.length : Int) + 1) ∉ s.transfers.map Transfer.id ∧
    (A.balance = amount →
      FindAccountByID (CreateTransfer s A.id B.id amount now).1 A.id
        = .ok { A with balance := 0 }) := by
  have hsrc : scanForID s.accounts A.id = some A := scanForID_eq_some_of hnd hA
  have hdst : scanForID s.accounts B.id = some B := scanForID_eq_some_of hnd hB
  have hbal2 : ¬ A.balance < amount := not_lt.mpr hbal
  rw [createTransfer_ok hsrc hdst hbal2]
  have hBA : B.id ≠ A.id := fun h => hAB h.symm
  have hfA : (updBalance (updBalance s.accounts A.id (fun b => b - amount))
      B.id (fun b => b + amount)).find? (fun acc => acc.id == A.id)
      = some { A with balance := A.balance - amount } := by
    rw [find?_updBalance, find?_updBalance, find?_id_eq_some hnd hA]
    simp [hAB]
  have hfB : (updBalance (updBalance s.accounts A.id (fun b => b - amount))
      B.id (fun b => b + amount)).find? (fun acc => acc.id == B.id)
      = some { B with balance := B.balance + amount } := by
    rw [find?_updBalance, find?_updBalance, find?_id_eq_some hnd hB]
    simp [hBA]
  refine ⟨rfl, ?_, ?_, rfl, ?_, ?_⟩
  · simp [FindAccountByID, hfA]
  · simp [FindAccountByID, hfB]
  · intro hmem
    obtain ⟨tr0, htr0, heq⟩ := List.mem_map.mp hmem
    have := htr tr0 htr0
    omega
  · intro heq
    have hz : A.balance - amount = 0 := by rw [heq, sub_self]
    simp [FindAccountByID, hfA, hz]

/-- Witness for C1 on a concrete two-account store: transferring 2 out of a
balance of 5 succeeds, leaves balances 3 and 5, and records the transfer. -/
theorem C1_transfer_success_witness :
    (CreateTransfer
        { accounts := [{ id := 1, name := "a", cpf := "c1", secret := "s",
                         balance := 5, createdAt := 0 },
                       { id := 2, name := "b", cpf := "c2", secret := "s",
                         balance := 3, createdAt := 0 }], transfers := [] }
        1 2 2 7).2
      = .ok { id := 1, accountOriginID := 1, accountDestinationID := 2,
              amount := 2, createdAt := 7 } ∧
    FindAccountByID (CreateTransfer
        { accounts := [{ id := 1, name := "a", cpf := "c1", secret := "s",
                         balance := 5, createdAt := 0 },
                       { id := 2, name := "b", cpf := "c2", secret := "s",
                         balance := 3, createdAt := 0 }], transfers := [] }
        1 2 2 7).1 1
      = .ok { id := 1, name := "a", cpf := "c1", secret := "s",
              balance := 5 - 2, createdAt := 0 } := by
  have h := C1_transfer_success
    { accounts := [{ id := 1, name := "a", cpf := "c1", secret := "s",
                     balance := 5, createdAt := 0 },
                   { id := 2, name := "b", cpf := "c2", secret := "s",
                     balance := 3, createdAt := 0 }], transfers := [] }
    { id := 1, name := "a", cpf := "c1", secret := "s", balance := 5,
      createdAt := 0 }
    { id := 2, name := "b", cpf := "c2", secret := "s", balance := 3,
      createdAt := 0 }
    2 7
    (by decide) (by simp) (by simp) (by simp) (by decide) (by decide)
  exact ⟨h.1, h.2.1⟩

/-- C2: `CreateTransfer` fails with `ErrAccountNotFound` whenever the
origin or the destination account does not exist, and with
`ErrNotEnoughFunds` whenever both exist but the origin balance is strictly
below the amount; in each failure case the returned state is exactly the
pre-state (no balance changes, no transfer recorded). -/
theorem C2_transfer_failures (s : DBState) (originID destID : Int)
    (amount : ℚ) (now : Int)
    (hnd : (s.accounts.map Account.id).Nodup) :
    (((¬ ∃ a ∈ s.accounts, a.id = originID) ∨
        (¬ ∃ a ∈ s.accounts, a.id = destID)) →
      CreateTransfer s originID destID amount now
        = (s, .error .accountNotFound)) ∧
    (∀ A, A ∈ s.accounts → A.id = originID →
      (∃ b ∈ s.accounts, b.id = destID) → A.balance < amount →
      CreateTransfer s originID destID amount now
        = (s, .error .notEnoughFunds)) := by
  constructor
  · rintro (h | h)
    · have hsrc : scanForID s.accounts originID = none := by
        rw [scanForID_eq_none]
        intro a ha
        exact fun he => h ⟨a, ha, he⟩
      cases h2 : scanForID s.accounts destID <;>
        simp [CreateTransfer, hsrc, h2]
    · have hdst : scanForID s.accounts destID = none := by
        rw [scanForID_eq_none]
        intro a ha
        exact fun he => h ⟨a, ha, he⟩
      cases h1 : scanForID s.accounts originID <;>
        simp [CreateTransfer, hdst, h1]
  · intro A hA hid hdst hlt
    obtain ⟨b, hb, hbid⟩ := hdst
    have hsrc : scanForID s.accounts originID = some A := by
      rw [← hid]; exact scanForID_eq_some_of hnd hA
    have hdst2 : scanForID s.accounts destID = some b := by
      rw [← hbid]; exact scanForID_eq_some_of hnd hb
    simp [CreateTransfer, hsrc, hdst2, hlt]

/-- Witness for C2 on a concrete one-account store: a transfer from a
missing account fails with not-found, and an overdraft fails with
not-enough-funds, both leaving the store untouched. -/
theorem C2_transfer_failures_witness :
    (CreateTransfer
        { accounts := [{ id := 1, name := "a", cpf := "c1", secret := "s",
                         balance := 5, createdAt := 0 }], transfers := [] }
        9 1 1 0
      = ({ accounts := [{ id := 1, name := "a", cpf := "c1", secret := "s",
                          balance := 5, createdAt := 0 }], transfers := [] },
          .error .accountNotFound)) ∧
    (CreateTransfer
        { accounts := [{ id := 1, name := "a", cpf := "c1", secret := "s",
                         balance := 5, createdAt := 0 }], transfers := [] }
        1 1 10 0
      = ({ accounts := [{ id := 1, name := "a", cpf := "c1", secret := "s",
                          balance := 5, createdAt := 0 }], transfers := [] },
          .error .notEnoughFunds)) := by
  constructor
  · exact (C2_transfer_failures
      { accounts := [{ id := 1, name := "a", cpf := "c1", secret := "s",
                       balance := 5, createdAt := 0 }], transfers := [] }
      9 1 1 0 (by decide)).1 (Or.inl (by decide))
  · exact (C2_transfer_failures
      { accounts := [{ id := 1, name := "a", cpf := "c1", secret := "s",
                       balance := 5, createdAt := 0 }], transfers := [] }
      1 1 10 0 (by decide)).2
      { id := 1, name := "a", cpf := "c1", secret := "s", balance := 5,
        createdAt := 0 }
      (by simp) (by decide)
      ⟨{ id := 1, name := "a", cpf := "c1", secret := "s", balance := 5,
         createdAt := 0 }, by simp, by decide⟩
      (by decide)

/-- C10: in the in-memory ledger a self-transfer is accepted: for every
existing account A with `A.balance >= amount`, `CreateTransfer` with origin
and destination both A succeeds, leaves A's stored record (balance
included) exactly unchanged, and still appends one new transfer whose
origin and destination are both A. The two pointer writes of the Go code
hit the same record, so the balance ends at `(balance - amount) + amount`. -/
theorem C10_self_transfer (s : DBState) (A : Account) (amount : ℚ)
    (now : Int)
    (hnd : (s.accounts.map Account.id).Nodup)
    (hA : A ∈ s.accounts) (hbal : amount ≤ A.balance) :
    (CreateTransfer s A.id A.id amount now).2
        = .ok { id := (s.transfers.length : Int) + 1, accountOriginID := A.id,
                accountDestinationID := A.id, amount := amount,
                createdAt := now } ∧
    FindAccountByID (CreateTransfer s A.id A.id amount now).1 A.id = .ok A ∧
    (CreateTransfer s A.id A.id amount now).1.transfers
        = s.transfers ++
          [{ id := (s.transfers.length : Int) + 1, accountOriginID := A.id,
             accountDestinationID := A.id, amount := amount,
             createdAt := now }] := by
  have hsrc : scanForID s.accounts A.id = some A := scanForID_eq_some_of hnd hA
  have hbal2 : ¬ A.balance < amount := not_lt.mpr hbal
  rw [createTransfer_ok hsrc hsrc hbal2]
  have hz : A.balance - amount + amount = A.balance := sub_add_cancel _ _
  have hfA : (updBalance (updBalance s.accounts A.id (fun b => b - amount))
      A.id (fun b => b + amount)).find? (fun acc => acc.id == A.id)
      = some A := by
    rw [find?_updBalance, find?_updBalance, find?_id_eq_some hnd hA]
    simp [hz]
  exact ⟨rfl, by simp [FindAccountByID, hfA], rfl⟩

/-- Witness for C10 on a concrete store: a self-transfer of 2 from the
account with balance 5 succeeds and leaves the record unchanged. -/
theorem C10_self_transfer_witness :
    (CreateTransfer
        { accounts := [{ id := 1, name := "a", cpf := "c1", secret := "s",
                         balance := 5, createdAt := 0 }], transfers := [] }
        1 1 2 3).2
      = .ok { id := 1, accountOriginID := 1, accountDestinationID := 1,
              amount := 2, createdAt := 3 } ∧
    FindAccountByID (CreateTransfer
        { accounts := [{ id := 1, name := "a", cpf := "c1", secret := "s",
                         balance := 5, createdAt := 0 }], transfers := [] }
        1 1 2 3).1 1
      = .ok { id := 1, name := "a", cpf := "c1", secret := "s",
              balance := 5, createdAt := 0 } := by
  have h := C10_self_transfer
    { accounts := [{ id := 1, name := "a", cpf := "c1", secret := "s",
                     balance := 5, createdAt := 0 }], transfers := [] }
    { id := 1, name := "a", cpf := "c1", secret := "s", balance := 5,
      createdAt := 0 }
    2 3
    (by decide) (by simp) (by decide)
  exact ⟨h.1, h.2.1⟩

/-- C3 counterexample: the claim that every committed operation leaves all
balances non-negative fails on the code. The `createAccount` body carries
no validation on `balance` (`json:"balance"` with no `validate` tag), so a
request with a valid name, CPF and secret but balance -1 commits from the
empty store and leaves a negative balance. -/
theorem C3_counterexample :
    Reachable (Router.createAccountHandler emptyDB "negative account"
        "111.111.111-11" "secret1" (-1) 0).1 ∧
    ∃ a ∈ (Router.createAccountHandler emptyDB "negative account"
        "111.111.111-11" "secret1" (-1) 0).1.accounts, a.balance < 0 := by
  constructor
  · exact Reachable.createAccount "negative account" "111.111.111-11"
      "secret1" (-1) 0 Reachable.empty
  · decide

/-- C3 amended: along every run from the empty store in which each account
creation carries a non-negative initial balance and each transfer a
non-negative amount, every committed operation leaves all balances
non-negative. (The code itself enforces neither input restriction.) -/
theorem C3_balances_nonneg {s : DBState} (h : ReachableNN s) :
    ∀ a ∈ s.accounts, 0 ≤ a.balance :=
  reachableNN_nonneg h

/-- Witness for the amended C3, at the store obtained by creating one
account with balance 100: the stored account's balance is non-negative. -/
theorem C3_balances_nonneg_witness :
    (0 : ℚ) ≤ ({ id := 1, name := "first account", cpf := "111.111.111-11",
                 secret := Auth.hashPassword "secret1", balance := 100,
                 createdAt := 0 } : Account).balance :=
  C3_balances_nonneg
    (ReachableNN.createAccount "first account" "111.111.111-11" "secret1"
      100 0 ReachableNN.empty (by norm_num))
    { id := 1, name := "first account", cpf := "111.111.111-11",
      secret := Auth.hashPassword "secret1", balance := 100, createdAt := 0 }
    (by decide)

/-- C4: `CreateAccount` fails with `ErrAccountAlreadyExists` exactly when
an account with the same CPF is already stored; on that failure the store
is returned unchanged; and consequently no reachable store holds two
accounts with the same CPF. -/
theorem C4_cpf_unique (s : DBState) (name cpf secret : String) (balance : ℚ)
    (now : Int) :
    ((CreateAccount s name cpf secret balance now).2
        = .error .accountAlreadyExists ↔ ∃ a ∈ s.accounts, a.cpf = cpf) ∧
    ((∃ a ∈ s.accounts, a.cpf = cpf) →
      (CreateAccount s name cpf secret balance now).1 = s) ∧
    (∀ s2, Reachable s2 → (s2.accounts.map Account.cpf).Nodup) := by
  refine ⟨?_, ?_, fun s2 h => reachable_cpf_nodup h⟩
  · by_cases hdup : s.accounts.any (fun acc => acc.cpf == cpf)
    · simp only [List.any_eq_true, beq_iff_eq] at hdup
      simp [CreateAccount, List.any_eq_true, hdup]
    · have hno : ¬ ∃ a ∈ s.accounts, a.cpf = cpf := by
        simpa [List.any_eq_true] using hdup
      simp [CreateAccount, hdup, hno]
  · intro hex
    have hdup : s.accounts.any (fun acc => acc.cpf == cpf) := by
      simpa [List.any_eq_true] using hex
    simp [CreateAccount, hdup]

/-- Witness for C4: on a store holding CPF `"c1"`, re-creating `"c1"` fails
with the duplicate error and leaves the store unchanged, while the empty
reachable store trivially has distinct CPFs. -/
theorem C4_cpf_unique_witness :
    (CreateAccount
        { accounts := [{ id := 1, name := "a", cpf := "c1", secret := "s",
                         balance := 5, createdAt := 0 }], transfers := [] }
        "b" "c1" "s2" 3 1).2 = .error .accountAlreadyExists ∧
    (CreateAccount
        { accounts := [{ id := 1, name := "a", cpf := "c1", secret := "s",
                         balance := 5, createdAt := 0 }], transfers := [] }
        "b" "c1" "s2" 3 1).1
      = { accounts := [{ id := 1, name := "a", cpf := "c1", secret := "s",
                         balance := 5, createdAt := 0 }], transfers := [] } ∧
    ((emptyDB).accounts.map Account.cpf).Nodup := by
  have h := C4_cpf_unique
    { accounts := [{ id := 1, name := "a", cpf := "c1", secret := "s",
                     balance := 5, createdAt := 0 }], transfers := [] }
    "b" "c1" "s2" 3 1
  refine ⟨?_, ?_, ?_⟩
  · exact h.1.mpr ⟨{ id := 1, name := "a", cpf := "c1", secret := "s",
                     balance := 5, createdAt := 0 }, by simp, by decide⟩
  · exact h.2.1 ⟨{ id := 1, name := "a", cpf := "c1", secret := "s",
                   balance := 5, createdAt := 0 }, by simp, by decide⟩
  · exact h.2.2 emptyDB Reachable.empty

/-- C5 counterexample: the claim that every zero-or-negative amount is
rejected fails on the code. The `Amount` field only carries
`validate:"required"`, which checks presence, not sign; `CreateTransfer`
never checks the sign either, and `balance < amount` trivially fails for a
negative amount. Concretely: from the store holding accounts 1 (balance
100) and 2 (balance 50), the authenticated transfer request with
destination 2 and amount -1 is accepted and records a transfer of -1
(rather than being rejected before any record is created). -/
theorem C5_counterexample :
    (Router.createTransferHandler
        (Router.createAccountHandler
          (Router.createAccountHandler emptyDB "first account"
            "111.111.111-11" "secret1" 100 0).1
          "second account" "222.222.222-22" "secret2" 50 1).1
        1 2 (some (-1)) 2).2
      = .ok { id := 1, accountOriginID := 1, accountDestinationID := 2,
              amount := -1, createdAt := 2 } ∧
    (Router.createTransferHandler
        (Router.createAccountHandler
          (Router.createAccountHandler emptyDB "first account"
            "111.111.111-11" "secret1" 100 0).1
          "second account" "222.222.222-22" "secret2" 50 1).1
        1 2 (some (-1)) 2).1.transfers
      = [{ id := 1, accountOriginID := 1, accountDestinationID := 2,
           amount := -1, createdAt := 2 }] ∧
    (-1 : ℚ) < 0 := by
  refine ⟨by decide, by decide, by norm_num⟩

/-- C5 amended: the only check on the transfer amount is presence. A
request whose amount field is absent (the zero value of the decoded
struct) is rejected with a validation error before any state change; an
explicitly supplied amount of any sign passes validation, and is accepted
with a recorded transfer carrying exactly that amount whenever the
destination id is non-zero, both accounts resolve, and the origin balance
is not below the amount (which for non-positive amounts always holds at
non-negative balances). -/
theorem C5_amount_presence_only (s : DBState) (originID destID : Int)
    (now : Int) :
    Router.createTransferHandler s originID destID none now
        = (s, .error .validationError) ∧
    (∀ (q : ℚ) (src dst : Account), destID ≠ 0 →
      scanForID s.accounts originID = some src →
      scanForID s.accounts destID = some dst → ¬ src.balance < q →
      (Router.createTransferHandler s originID destID (some q) now).2
        = .ok { id := (s.transfers.length : Int) + 1,
                accountOriginID := originID, accountDestinationID := destID,
                amount := q, createdAt := now }) := by
  constructor
  · simp [Router.createTransferHandler, Router.validCreateTransferBody]
  · intro q src dst hdest hsrc hdst hbal
    have hv : Router.validCreateTransferBody destID (some q) = true := by
      simp [Router.validCreateTransferBody, hdest]
    simp only [Router.createTransferHandler, hv, if_true]
    rw [createTransfer_ok hsrc hdst hbal]

/-- Witness for the amended C5: an absent amount is rejected on a concrete
store, and an explicit amount of -3 is accepted there. -/
theorem C5_amount_presence_only_witness :
    Router.createTransferHandler
        { accounts := [{ id := 1, name := "a", cpf := "c1", secret := "s",
                         balance := 5, createdAt := 0 }], transfers := [] }
        1 1 none 0
      = ({ accounts := [{ id := 1, name := "a", cpf := "c1", secret := "s",
                          balance := 5, createdAt := 0 }], transfers := [] },
         .error .validationError) ∧
    (Router.createTransferHandler
        { accounts := [{ id := 1, name := "a", cpf := "c1", secret := "s",
                         balance := 5, createdAt := 0 }], transfers := [] }
        1 1 (some (-3)) 0).2
      = .ok { id := 1, accountOriginID := 1, accountDestinationID := 1,
              amount := -3, createdAt := 0 } := by
  have h := C5_amount_presence_only
    { accounts := [{ id := 1, name := "a", cpf := "c1", secret := "s",
                     balance := 5, createdAt := 0 }], transfers := [] }
    1 1 0
  refine ⟨h.1, ?_⟩
  exact h.2 (-3)
    { id := 1, name := "a", cpf := "c1", secret := "s", balance := 5,
      createdAt := 0 }
    { id := 1, name := "a", cpf := "c1", secret := "s", balance := 5,
      createdAt := 0 }
    (by decide) (by decide) (by decide) (by norm_num)

/-- C6: token round-trip. Decoding a token with the secret that signed it
returns the encoded account id whenever the decode happens between
issuance and expiry, and decoding it with any other secret fails (the
ideal-MAC signature check cannot pass under a different key). -/
theorem C6_token_roundtrip (secret secret2 : String) (accountID : Int)
    (t tv : Int) (h1 : t ≤ tv) (h2 : tv ≤ t + 3600) (hs : secret2 ≠ secret) :
    Auth.DecodeToken secret (Auth.EncodeToken secret accountID t) tv
        = .ok accountID ∧
    Auth.DecodeToken secret2 (Auth.EncodeToken secret accountID t) tv
        = .error .signatureInvalid := by
  have halg : ¬ ((Auth.EncodeToken secret accountID t).alg ≠ Auth.hs256) := by
    simp [Auth.EncodeToken]
  have hexp : ¬ ((Auth.EncodeToken secret accountID t).claims.expiresAt ≠ 0 ∧
      (Auth.EncodeToken secret accountID t).claims.expiresAt < tv) := by
    rintro ⟨-, hlt⟩
    simp only [Auth.EncodeToken] at hlt
    omega
  have hiat : ¬ ((Auth.EncodeToken secret accountID t).claims.issuedAt ≠ 0 ∧
      tv < (Auth.EncodeToken secret accountID t).claims.issuedAt) := by
    rintro ⟨-, hlt⟩
    simp only [Auth.EncodeToken] at hlt
    omega
  constructor
  · have hsig : ¬ ((Auth.EncodeToken secret accountID t).sig
        ≠ Auth.mac secret (Auth.EncodeToken secret accountID t).claims) := by
      simp [Auth.EncodeToken, Auth.mac]
    rw [Auth.DecodeToken, if_neg halg, if_neg hexp, if_neg hiat, if_neg hsig]
    rfl
  · have hsig : (Auth.EncodeToken secret accountID t).sig
        ≠ Auth.mac secret2 (Auth.EncodeToken secret accountID t).claims := by
      simp only [Auth.EncodeToken, Auth.mac, ne_eq, Prod.mk.injEq, not_and]
      intro he
      exact absurd he.symm hs
    rw [Auth.DecodeToken, if_neg halg, if_neg hexp, if_neg hiat, if_pos hsig]

/-- Witness for C6 at secret "k1", forged secret "k2", account 7, issued
and decoded at time 1000. -/
theorem C6_token_roundtrip_witness :
    Auth.DecodeToken "k1" (Auth.EncodeToken "k1" 7 1000) 1000 = .ok 7 ∧
    Auth.DecodeToken "k2" (Auth.EncodeToken "k1" 7 1000) 1000
        = .error .signatureInvalid :=
  C6_token_roundtrip "k1" "k2" 7 1000 1000 (by norm_num) (by norm_num)
    (by decide)

/-- C7: the token produced by `EncodeToken` embeds the account id, the
issued-at instant and an expires-at instant exactly one hour (3600 Unix
seconds) later, and `DecodeToken` fails on every token whose (non-zero)
expiry lies before the decoding instant. Both `time.Now()` reads inside
`EncodeToken` are modelled as the same instant. -/
theorem C7_token_contents (secret : String) (accountID t : Int) :
    (Auth.EncodeToken secret accountID t).claims
        = { accountID := accountID, issuedAt := t, expiresAt := t + 3600 } ∧
    (∀ (secret2 : String) (token : Auth.SignedToken) (now : Int),
      token.claims.expiresAt ≠ 0 → token.claims.expiresAt < now →
      ∃ e, Auth.DecodeToken secret2 token now = .error e) := by
  refine ⟨rfl, ?_⟩
  intro secret2 token now hne hlt
  by_cases halg : token.alg ≠ Auth.hs256
  · exact ⟨.unexpectedSigningMethod, by rw [Auth.DecodeToken, if_pos halg]⟩
  · exact ⟨.tokenExpired,
      by rw [Auth.DecodeToken, if_neg halg, if_pos ⟨hne, hlt⟩]⟩

/-- Witness for C7 at secret "k", account 3, issued at 0, decoded at 4000
(after the 3600-second expiry). -/
theorem C7_token_contents_witness :
    (Auth.EncodeToken "k" 3 0).claims
        = { accountID := 3, issuedAt := 0, expiresAt := 3600 } ∧
    ∃ e, Auth.DecodeToken "k" (Auth.EncodeToken "k" 3 0) 4000 = .error e := by
  have h := C7_token_contents "k" 3 0
  exact ⟨h.1, h.2 "k" (Auth.EncodeToken "k" 3 0) 4000 (by decide) (by decide)⟩

/-- C9: in `requireLogin`, a credential whose token decodes to an account
id that is not in the store is rejected with the same
`INVALID_BEARER_TOKEN` code as a credential whose token fails
verification; the two failure causes are indistinguishable to the
caller. -/
theorem C9_invalid_token_indistinct (s : DBState) (jwtSecret : String)
    (token : Auth.SignedToken) (now : Int) :
    (∀ accountID, Auth.DecodeToken jwtSecret token now = .ok accountID →
      FindAccountByID s accountID = .error .accountNotFound →
      Router.requireLogin s jwtSecret (some token) now
        = .error .invalidBearerToken) ∧
    (∀ e, Auth.DecodeToken jwtSecret token now = .error e →
      Router.requireLogin s jwtSecret (some token) now
        = .error .invalidBearerToken) := by
  constructor
  · intro accountID hdec hfind
    simp [Router.requireLogin, hdec, hfind]
  · intro e hdec
    simp [Router.requireLogin, hdec]

/-- Witness for C9: on the empty store, a well-signed token for the absent
account 5 and a token with a rejected signing method are both refused with
`INVALID_BEARER_TOKEN`. -/
theorem C9_invalid_token_indistinct_witness :
    Router.requireLogin emptyDB "k" (some (Auth.EncodeToken "k" 5 0)) 0
        = .error .invalidBearerToken ∧
    Router.requireLogin emptyDB "k"
        (some { alg := "none",
                claims := { accountID := 5, issuedAt := 0,
                            expiresAt := 3600 },
                sig := Auth.mac "k" { accountID := 5, issuedAt := 0,
                                      expiresAt := 3600 } }) 0
        = .error .invalidBearerToken := by
  constructor
  · exact (C9_invalid_token_indistinct emptyDB "k" (Auth.EncodeToken "k" 5 0)
      0).1 5 (by decide) (by decide)
  · exact (C9_invalid_token_indistinct emptyDB "k"
      { alg := "none",
        claims := { accountID := 5, issuedAt := 0, expiresAt := 3600 },
        sig := Auth.mac "k" { accountID := 5, issuedAt := 0,
                              expiresAt := 3600 } } 0).2
      .unexpectedSigningMethod (by decide)

/-- C8 counterexample: the claim that `FindAllAccounts` returns the
accounts ordered by creation timestamp ascending fails for the in-memory
implementation, which ranges over a Go map in unspecified order and does
no sorting. At the reachable store holding accounts created at times 0 and
1, the reversed listing is among the possible results and is not sorted
ascending. -/
theorem C8_counterexample :
    Reachable (Router.createAccountHandler
        (Router.createAccountHandler emptyDB "first account"
          "111.111.111-11" "secret1" 100 0).1
        "second account" "222.222.222-22" "secret2" 50 1).1 ∧
    FindAllAccountsCanReturn (Router.createAccountHandler
        (Router.createAccountHandler emptyDB "first account"
          "111.111.111-11" "secret1" 100 0).1
        "second account" "222.222.222-22" "secret2" 50 1).1
      [{ id := 2, name := "second account", cpf := "222.222.222-22",
         secret := Auth.hashPassword "secret2", balance := 50,
         createdAt := 1 },
       { id := 1, name := "first account", cpf := "111.111.111-11",
         secret := Auth.hashPassword "secret1", balance := 100,
         createdAt := 0 }] ∧
    ¬ sortedByCreation
      [{ id := 2, name := "second account", cpf := "222.222.222-22",
         secret := Auth.hashPassword "secret2", balance := 50,
         createdAt := 1 },
       { id := 1, name := "first account", cpf := "111.111.111-11",
         secret := Auth.hashPassword "secret1", balance := 100,
         createdAt := 0 }] := by
  refine ⟨?_, ?_, ?_⟩
  · exact Reachable.createAccount "second account" "222.222.222-22"
      "secret2" 50 1
      (Reachable.createAccount "first account" "111.111.111-11" "secret1"
        100 0 Reachable.empty)
  · have haccs : (Router.createAccountHandler
        (Router.createAccountHandler emptyDB "first account"
          "111.111.111-11" "secret1" 100 0).1
        "second account" "222.222.222-22" "secret2" 50 1).1.accounts
        = [{ id := 1, name := "first account", cpf := "111.111.111-11",
             secret := Auth.hashPassword "secret1", balance := 100,
             createdAt := 0 },
           { id := 2, name := "second account", cpf := "222.222.222-22",
             secret := Auth.hashPassword "secret2", balance := 50,
             createdAt := 1 }] := by decide
    rw [FindAllAccountsCanReturn, haccs]
    exact List.Perm.swap _ _ _
  · intro h
    have := List.rel_of_sorted_cons h
      { id := 1, name := "first account", cpf := "111.111.111-11",
        secret := Auth.hashPassword "secret1", balance := 100,
        createdAt := 0 } (by simp)
    norm_num at this

/-- C8 amended: every listing the in-memory `FindAllAccounts` can return
contains exactly the stored accounts (a permutation — all of them, each
once), in the unspecified map-iteration order with no sorting guarantee;
the Postgres implementation additionally returns them sorted by creation
timestamp ascending (`ORDER BY created_at ASC`). -/
theorem C8_list_all_accounts (s : DBState) :
    (∀ out, FindAllAccountsCanReturn s out →
      out.Perm s.accounts ∧ out.length = s.accounts.length) ∧
    (postgresFindAllAccounts s).Perm s.accounts ∧
    sortedByCreation (postgresFindAllAccounts s) := by
  refine ⟨fun out h => ⟨h.symm, h.length_eq.symm⟩,
    List.mergeSort_perm _ _, ?_⟩
  have htrans : ∀ a b c : Account, createdAtLE a b = true →
      createdAtLE b c = true → createdAtLE a c = true := by
    intro a b c hab hbc
    simp only [createdAtLE, decide_eq_true_eq] at hab hbc ⊢
    omega
  have htotal : ∀ a b : Account,
      (createdAtLE a b || createdAtLE b a) = true := by
    intro a b
    simp only [createdAtLE, Bool.or_eq_true, decide_eq_true_eq]
    omega
  have hp := List.sorted_mergeSort htrans htotal s.accounts
  unfold sortedByCreation postgresFindAllAccounts
  exact hp.imp fun h => by simpa [createdAtLE] using h

/-- Witness for the amended C8, at the empty store. -/
theorem C8_list_all_accounts_witness :
    (postgresFindAllAccounts emptyDB).Perm emptyDB.accounts ∧
    sortedByCreation (postgresFindAllAccounts emptyDB) :=
  ⟨(C8_list_all_accounts emptyDB).2.1, (C8_list_all_accounts emptyDB).2.2⟩

end DesafioGoStone
